import Mathlib

/-!
Shallow embedding of `softdatetime.ts` (namespace `timeAndDate`) of the
micro:bit software clock extension, together with proofs about its clock
state model, calendar arithmetic and instant resolver.

Modelling conventions:
* TypeScript numbers are modelled as `Int`; `Math.idiv` is `Int.tdiv`
  (truncation toward zero) and the TypeScript `%` operator is `Int.tmod`
  (remainder with the sign of the dividend), which agree with the
  reference semantics on the values the program computes.
* The module-level state variables `startYear`, `timeToSetpoint` and
  `cpuTimeAtSetpoint` are gathered in the structure `ClockState`; every
  exported operation is modelled as an explicit state-passing function.
  Operations that the source implements without assigning to any state
  variable return their input state unchanged.
* The elapsed-time source `timeInSeconds()` is external input; each
  operation takes the current reading as an extra `cpuTime` argument.
* Array reads out of bounds (`cdoy[14]` in the scan loop) are modelled
  with default value 0; the only guard that can see that read is
  `d <= cdoy[14]`, reached only when `365 < d`, where both the JS
  comparison with `undefined` and the comparison with 0 are false.
* The `while` loop of `timeFor` is encoded as structural recursion on a
  fuel argument `s.toNat`; the lemma `rollOverAux_eq_rollOver` shows the
  result does not depend on the fuel as long as it dominates `s.toNat`,
  so the encoding computes exactly the loop.
* `serial.writeLine` in `advanceBy` is diagnostic output with no effect
  on the state and is omitted.
-/

namespace timeAndDate

/-- Enum `MornNight` of the source. -/
inductive MornNight
  | AM
  | PM
deriving DecidableEq, Repr

/-- Enum `TimeUnit` of the source; constructor order is the numeric value
of the enum member, which indexes the `units` conversion table in
`advanceBy`. -/
inductive TimeUnit
  | Milliseconds
  | Seconds
  | Minutes
  | Hours
  | Days
deriving DecidableEq, Repr

/-- Ordinal value of a `TimeUnit`, as used to index the `units` table. -/
def TimeUnit.index : TimeUnit → Nat
  | .Milliseconds => 0
  | .Seconds => 1
  | .Minutes => 2
  | .Hours => 3
  | .Days => 4

/-- Enum `TimeFormat` of the source. -/
inductive TimeFormat
  | AMPM
  | HHMM24hr
deriving DecidableEq, Repr

/-- Enum `DateFormat` of the source. -/
inductive DateFormat
  | MD
  | MDYYYY
  | YYYY_MM_DD
deriving DecidableEq, Repr

/-- The `DateTime` interface of the source: month 1-12, day 1-31,
year (assumed 2020 or later), hour 0-23, minute 0-59, second 0-59,
day-of-year 1-366. -/
structure DateTime where
  month : Int
  day : Int
  year : Int
  hour : Int
  minute : Int
  second : Int
  dayOfYear : Int
deriving DecidableEq, Repr

/-- The three module-level state variables of the source. -/
structure ClockState where
  startYear : Int
  timeToSetpoint : Int
  cpuTimeAtSetpoint : Int
deriving DecidableEq, Repr

/-- `cdoy`: cumulative completed days prior to each month (1-based month
indices; index 0 unused). -/
def cdoy : List Int := [0, 0, 31, 59, 90, 120, 151, 181, 212, 243, 273, 304, 334, 365]

/-- Read `cdoy[i]`, with 0 for an out-of-range index. -/
def cdoyAt (i : Nat) : Int := cdoy.getD i 0

/-- `isLeapYear(y)` of the source. -/
def isLeapYear (y : Int) : Bool :=
  y.tmod 400 == 0 || (y.tmod 100 != 0 && y.tmod 4 == 0)

/-- `dateToDayOfYear(m, d, y)` of the source (assumes a valid date). -/
def dateToDayOfYear (m d y : Int) : Int :=
  let dayOfYear := cdoyAt m.toNat + d
  if 2 < m ∧ isLeapYear y then dayOfYear + 1 else dayOfYear

/-- The scan loop of `dayOfYearToMonthAndDay`:
`for (let i = 1; i < cdoy.length; i++) if (d <= cdoy[i+1]) return ...`,
with `cdoy.length = 14`. The argument `k` counts the remaining
iterations, so the loop index is `i = 14 - (k + 1)` and the initial call
uses `k = 13`; `k = 0` is loop exhaustion, returning the sentinel. -/
def mdScanAux (d : Int) : Nat → DateTime
  | 0 => ⟨-1, -1, 0, 0, 0, 0, 0⟩
  | k + 1 =>
    if d ≤ cdoyAt (14 - (k + 1) + 1) then
      ⟨((14 - (k + 1) : Nat) : Int), d - cdoyAt (14 - (k + 1)), 0, 0, 0, 0, 0⟩
    else mdScanAux d k

/-- `dayOfYearToMonthAndDay(d, y)` of the source. Returns a `DateTime`
with just month and day set (others 0), or the sentinel month = day = -1
when the scan exhausts the table. -/
def dayOfYearToMonthAndDay (d y : Int) : DateTime :=
  if isLeapYear y ∧ d = 60 then ⟨2, 29, 0, 0, 0, 0, 0⟩
  else mdScanAux (if isLeapYear y ∧ 60 < d then d - 1 else d) 13

/-- `secondsSoFarForYear(m, d, y, hh, mm, ss)` of the source. -/
def secondsSoFarForYear (m d y hh mm ss : Int) : Int :=
  (((dateToDayOfYear m d y - 1) * 24 + hh) * 60 + mm) * 60 + ss

/-- Loop guard of the year-rollover `while` loop in `timeFor`:
`(!leap && sSinceStartOfYear > 365*24*60*60) || (sSinceStartOfYear > 366*24*60*60)`. -/
def rollOverCond (y s : Int) : Prop :=
  (isLeapYear y = false ∧ 365 * 24 * 60 * 60 < s) ∨ 366 * 24 * 60 * 60 < s

instance instDecidableRollOverCond (y s : Int) : Decidable (rollOverCond y s) := by
  unfold rollOverCond
  infer_instance

/-- Loop body of the year-rollover loop: subtract the current year length
(`if (leap) 366*24*60*60 else 365*24*60*60`) from `sSinceStartOfYear`. -/
def nextRollSeconds (y s : Int) : Int :=
  if isLeapYear y then s - 366 * 24 * 60 * 60 else s - 365 * 24 * 60 * 60

/-- The year-rollover `while` loop, encoded with a fuel argument that is
structurally decreased; the fuel never runs out when it starts at
`s.toNat` (lemma `rollOverAux_eq_rollOver`), because every iteration has
`365*24*60*60 < s` and leaves `0 < s`. -/
def rollOverAux : Nat → Int → Int → Int × Int
  | 0, y, s => (y, s)
  | fuel + 1, y, s =>
    if rollOverCond y s then rollOverAux fuel (y + 1) (nextRollSeconds y s)
    else (y, s)

/-- The year-rollover loop of `timeFor`, started at year `y` with
`sSinceStartOfYear = s`; returns the final year and the remaining
seconds since the start of that year. -/
def rollOver (y s : Int) : Int × Int := rollOverAux s.toNat y s

/-- `timeFor(cpuTime)` of the source: the instant resolver. -/
def timeFor (st : ClockState) (cpuTime : Int) : DateTime :=
  let deltaTime := cpuTime - st.cpuTimeAtSetpoint
  let sSinceStartOfYear := st.timeToSetpoint + deltaTime
  let p := rollOver st.startYear sSinceStartOfYear
  let y := p.1
  let s := p.2
  let daysFromStartOfYear := s.tdiv (24 * 60 * 60) + 1
  let secondsSinceStartOfDay := s.tmod (24 * 60 * 60)
  let hoursFromStartOfDay := secondsSinceStartOfDay.tdiv (60 * 60)
  let secondsSinceStartOfHour := secondsSinceStartOfDay.tmod (60 * 60)
  let minutesFromStartOfHour := secondsSinceStartOfHour.tdiv 60
  let secondsSinceStartOfMinute := secondsSinceStartOfHour.tmod 60
  let ddmm := dayOfYearToMonthAndDay daysFromStartOfYear y
  ⟨ddmm.month, ddmm.day, y, hoursFromStartOfDay, minutesFromStartOfHour,
    secondsSinceStartOfMinute, daysFromStartOfYear⟩

/-- The pair (rolled-over year, remaining seconds in that year) that
`timeFor` computes before decomposing into an instant. -/
def resolvedYS (st : ClockState) (cpuTime : Int) : Int × Int :=
  rollOver st.startYear (st.timeToSetpoint + (cpuTime - st.cpuTimeAtSetpoint))

/-- The decomposition part of `timeFor`: from (year, seconds since start
of that year) to the full instant. -/
def decomposeInstant (p : Int × Int) : DateTime :=
  let y := p.1
  let s := p.2
  let daysFromStartOfYear := s.tdiv (24 * 60 * 60) + 1
  let secondsSinceStartOfDay := s.tmod (24 * 60 * 60)
  let hoursFromStartOfDay := secondsSinceStartOfDay.tdiv (60 * 60)
  let secondsSinceStartOfHour := secondsSinceStartOfDay.tmod (60 * 60)
  let minutesFromStartOfHour := secondsSinceStartOfHour.tdiv 60
  let secondsSinceStartOfMinute := secondsSinceStartOfHour.tmod 60
  let ddmm := dayOfYearToMonthAndDay daysFromStartOfYear y
  ⟨ddmm.month, ddmm.day, y, hoursFromStartOfDay, minutesFromStartOfHour,
    secondsSinceStartOfMinute, daysFromStartOfYear⟩

/-- `set24HourTime(hour, minute, second)` of the source. Note that the
source assigns only `cpuTimeAtSetpoint` and `timeToSetpoint`;
`startYear` is left untouched. -/
def set24HourTime (hour minute second : Int) (cpuTime : Int) (st : ClockState) : ClockState :=
  let t := timeFor st cpuTime
  ⟨st.startYear, secondsSoFarForYear t.month t.day t.year hour minute second, cpuTime⟩

/-- `setDate(month, day, year)` of the source: assigns `startYear := year`
first, then computes `timeToSetpoint` from the (updated) `startYear`. -/
def setDate (month day year : Int) (cpuTime : Int) (st : ClockState) : ClockState :=
  let t := timeFor st cpuTime
  ⟨year, secondsSoFarForYear month day year t.hour t.minute t.second, cpuTime⟩

/-- `setTime(hour, minute, second, ampm)` of the source. The second
branch of the normalization tests only `hour < 12`, exactly as the
source does. -/
def setTime (hour minute second : Int) (ampm : MornNight) (cpuTime : Int)
    (st : ClockState) : ClockState :=
  let hour2 := if ampm = MornNight.AM ∧ hour = 12 then 0
    else if hour < 12 then hour + 12
    else hour
  set24HourTime hour2 minute second cpuTime st

/-- `advanceBy(amount, unit)` of the source: subtract
`amount * units[unit]` from `cpuTimeAtSetpoint`, where
`units = [0, 1, 60*1, 60*60*1, 24*60*60*1]`. -/
def advanceBy (amount : Int) (unit : TimeUnit) (st : ClockState) : ClockState :=
  let units : List Int := [0, 1, 60 * 1, 60 * 60 * 1, 24 * 60 * 60 * 1]
  ⟨st.startYear, st.timeToSetpoint, st.cpuTimeAtSetpoint - amount * units.getD unit.index 0⟩

/-- `dayOfWeek(m, d, y)` of the source (a Zeller-style rule). -/
def dayOfWeek (m d y : Int) : Int :=
  let D := y.tmod 100
  let C := y.tdiv 100
  d + (13 * m - 1).tdiv 5 + D + D.tdiv 4 + C.tdiv 4 - 2 * C

/-- The `while (value.length < digits)` loop of `leftZeroPadTo`. -/
def padLoop (digits : Int) (value : String) : String :=
  if value.length < digits then padLoop digits ("0" ++ value) else value
termination_by (digits - value.length).toNat
decreasing_by
  have h : ("0" ++ value).length = 1 + value.length := by
    simp [String.length_append]
    rfl
  omega

/-- `leftZeroPadTo(inp, digits)` of the source. -/
def leftZeroPadTo (inp : Int) (digits : Int) : String :=
  padLoop digits (toString inp)

/-- `fullTime(t)` of the source: `HH:MM.SS`. -/
def fullTime (t : DateTime) : String :=
  leftZeroPadTo t.hour 2 ++ ":" ++ leftZeroPadTo t.minute 2 ++ "." ++ leftZeroPadTo t.second 2

/-- `fullYear(t)` of the source: `YYYY-MM-DD`. -/
def fullYear (t : DateTime) : String :=
  leftZeroPadTo t.year 4 ++ "-" ++ leftZeroPadTo t.month 2 ++ "-" ++ leftZeroPadTo t.day 2

/-- `numericTime(handler)` of the source: resolves the current instant and
hands the eight numeric fields to the consumer. Modelled as returning the
tuple the handler receives; the state is returned unchanged, as the
source assigns no state variable here. -/
def numericTime (cpuTime : Int) (st : ClockState) :
    ClockState × (Int × Int × Int × Int × Int × Int × Int × Int) :=
  let t := timeFor st cpuTime
  (st, (t.hour, t.minute, t.second, dayOfWeek t.month t.day t.year, t.day, t.month,
    t.year, t.dayOfYear))

/-- `time(format)` of the source. The state is returned unchanged, as the
source assigns no state variable here. -/
def time (format : TimeFormat) (cpuTime : Int) (st : ClockState) : ClockState × String :=
  let t := timeFor st cpuTime
  match format with
  | TimeFormat.HHMM24hr => (st, fullTime t)
  | TimeFormat.AMPM =>
    let ap := if t.hour < 12 then "am" else "pm"
    let hour := if t.hour = 0 then 12
      else if 12 < t.hour then t.hour - 12
      else t.hour
    (st, toString hour ++ ":" ++ leftZeroPadTo t.minute 2 ++ "." ++ leftZeroPadTo t.second 2 ++ ap)

/-- `date(format)` of the source. The state is returned unchanged, as the
source assigns no state variable here. -/
def date (format : DateFormat) (cpuTime : Int) (st : ClockState) : ClockState × String :=
  let t := timeFor st cpuTime
  match format with
  | DateFormat.MD => (st, toString t.month ++ "/" ++ toString t.day)
  | DateFormat.MDYYYY =>
    (st, toString t.month ++ "/" ++ toString t.day ++ "/" ++ toString t.year)
  | DateFormat.YYYY_MM_DD => (st, fullYear t)

/-- `dateTime()` of the source. The state is returned unchanged, as the
source assigns no state variable here. -/
def dateTime (cpuTime : Int) (st : ClockState) : ClockState × String :=
  let t := timeFor st cpuTime
  (st, fullYear t ++ " " ++ fullTime t)

/-- Days in month `m` of year `y`, read off the cumulative table (with the
leap-day correction for February). Not a function of the source; it is
used only to state claims that quantify over valid dates. -/
def daysInMonth (m y : Int) : Int :=
  cdoyAt (m.toNat + 1) - cdoyAt m.toNat + (if m = 2 ∧ isLeapYear y then 1 else 0)

/-! Infrastructure lemmas about the year-rollover loop. -/

lemma lt_of_rollOverCond {y s : Int} (h : rollOverCond y s) : 365 * 24 * 60 * 60 < s := by
  rcases h with ⟨_, h⟩ | h
  · exact h
  · omega

lemma nextRollSeconds_pos {y s : Int} (h : rollOverCond y s) :
    0 < nextRollSeconds y s ∧ nextRollSeconds y s < s := by
  unfold nextRollSeconds
  rcases h with ⟨hl, hs⟩ | hs
  · rw [hl]
    simp only [Bool.false_eq_true, if_false]
    omega
  · by_cases hl : isLeapYear y <;> simp only [hl, if_true, Bool.false_eq_true, if_false] <;> omega

lemma rollOverAux_succ (fuel : Nat) : ∀ (y s : Int), s.toNat ≤ fuel →
    rollOverAux (fuel + 1) y s = rollOverAux fuel y s := by
  induction fuel with
  | zero =>
    intro y s hs
    have hc : ¬ rollOverCond y s := fun h => by
      have := lt_of_rollOverCond h
      omega
    simp [rollOverAux, hc]
  | succ f ih =>
    intro y s hs
    by_cases hc : rollOverCond y s
    · have hp := nextRollSeconds_pos hc
      have hn : (nextRollSeconds y s).toNat ≤ f := by omega
      show (if rollOverCond y s then rollOverAux (f + 1) (y + 1) (nextRollSeconds y s)
          else (y, s)) =
        (if rollOverCond y s then rollOverAux f (y + 1) (nextRollSeconds y s) else (y, s))
      rw [if_pos hc, if_pos hc, ih (y + 1) (nextRollSeconds y s) hn]
    · show (if rollOverCond y s then _ else (y, s)) = (if rollOverCond y s then _ else (y, s))
      rw [if_neg hc, if_neg hc]

lemma rollOverAux_eq_rollOver : ∀ (fuel : Nat) (y s : Int), s.toNat ≤ fuel →
    rollOverAux fuel y s = rollOver y s := by
  intro fuel
  induction fuel with
  | zero =>
    intro y s hs
    unfold rollOver
    have h0 : s.toNat = 0 := by omega
    rw [h0]
  | succ f ih =>
    intro y s hs
    by_cases h : s.toNat ≤ f
    · rw [rollOverAux_succ f y s h, ih y s h]
    · have hf : s.toNat = f + 1 := by omega
      unfold rollOver
      rw [hf]

/-- One unfolding of the rollover loop. -/
lemma rollOver_step (y s : Int) :
    rollOver y s = if rollOverCond y s then rollOver (y + 1) (nextRollSeconds y s)
      else (y, s) := by
  by_cases hc : rollOverCond y s
  · have h1 := lt_of_rollOverCond hc
    have hp := nextRollSeconds_pos hc
    rw [if_pos hc]
    unfold rollOver
    obtain ⟨t, ht⟩ : ∃ t, s.toNat = t + 1 := ⟨s.toNat - 1, by omega⟩
    rw [ht]
    show (if rollOverCond y s then rollOverAux t (y + 1) (nextRollSeconds y s) else (y, s)) = _
    rw [if_pos hc]
    exact rollOverAux_eq_rollOver t (y + 1) (nextRollSeconds y s) (by omega)
  · rw [if_neg hc]
    unfold rollOver
    cases hn : s.toNat with
    | zero => rfl
    | succ t =>
      show (if rollOverCond y s then _ else (y, s)) = (y, s)
      rw [if_neg hc]

lemma rollOver_shift_aux (k : Int) (hk : 0 ≤ k) :
    ∀ (n : Nat) (y s : Int), s.toNat ≤ n → ∀ y₁ s₁, rollOver y s = (y₁, s₁) →
      rollOver y (s + k) = rollOver y₁ (s₁ + k) := by
  intro n
  induction n with
  | zero =>
    intro y s hs y₁ s₁ h
    have hc : ¬ rollOverCond y s := fun hc => by
      have := lt_of_rollOverCond hc
      omega
    rw [rollOver_step, if_neg hc] at h
    cases h
    rfl
  | succ f ih =>
    intro y s hs y₁ s₁ h
    by_cases hc : rollOverCond y s
    · have hck : rollOverCond y (s + k) := by
        rcases hc with ⟨hl, hlt⟩ | hlt
        · exact Or.inl ⟨hl, by omega⟩
        · exact Or.inr (by omega)
      rw [rollOver_step, if_pos hc] at h
      rw [rollOver_step, if_pos hck]
      have hnext : nextRollSeconds y (s + k) = nextRollSeconds y s + k := by
        unfold nextRollSeconds
        by_cases hl : isLeapYear y <;>
          simp only [hl, if_true, Bool.false_eq_true, if_false] <;> ring
      rw [hnext]
      have hp := nextRollSeconds_pos hc
      exact ih (y + 1) (nextRollSeconds y s) (by omega) y₁ s₁ h
    · rw [rollOver_step, if_neg hc] at h
      cases h
      rfl

/-- Advancing the seconds argument by a nonnegative offset commutes with
the rollover loop. -/
lemma rollOver_shift {k y s y₁ s₁ : Int} (hk : 0 ≤ k) (h : rollOver y s = (y₁, s₁)) :
    rollOver y (s + k) = rollOver y₁ (s₁ + k) :=
  rollOver_shift_aux k hk s.toNat y s le_rfl y₁ s₁ h

/-- `timeFor` factors through the rollover pair and the decomposition. -/
lemma timeFor_decompose (st : ClockState) (cpuTime : Int) :
    timeFor st cpuTime = decomposeInstant (resolvedYS st cpuTime) := rfl

/-! Congruence lemmas: the calendar functions depend on the year only
through `isLeapYear`. -/

lemma dateToDayOfYear_congr (m d : Int) {y₁ y₂ : Int} (h : isLeapYear y₁ = isLeapYear y₂) :
    dateToDayOfYear m d y₁ = dateToDayOfYear m d y₂ := by
  unfold dateToDayOfYear
  rw [h]

lemma dayOfYearToMonthAndDay_congr (d : Int) {y₁ y₂ : Int}
    (h : isLeapYear y₁ = isLeapYear y₂) :
    dayOfYearToMonthAndDay d y₁ = dayOfYearToMonthAndDay d y₂ := by
  unfold dayOfYearToMonthAndDay
  rw [h]

lemma daysInMonth_congr (m : Int) {y₁ y₂ : Int} (h : isLeapYear y₁ = isLeapYear y₂) :
    daysInMonth m y₁ = daysInMonth m y₂ := by
  unfold daysInMonth
  rw [h]

/-- Below the leap day, the inverse calendar lookup does not depend on
the year at all. -/
lemma dayOfYearToMonthAndDay_small {d : Int} (hd : d < 60) (y₁ y₂ : Int) :
    dayOfYearToMonthAndDay d y₁ = dayOfYearToMonthAndDay d y₂ := by
  unfold dayOfYearToMonthAndDay
  have h60 : ¬ (d = 60) := by omega
  have hgt : ¬ (60 < d) := by omega
  simp [h60, hgt]

/-! Claim theorems. -/

/-- Claim C1, behavior of the code at a failing input: `setTime` is claimed
to leave AM hours 1..11 unchanged, but its second normalization branch
tests only `hour < 12` (omitting the PM test that its own comment
describes), so `setTime(1, 0, 0, AM)` delegates to `set24HourTime` with
hour 13, not hour 1: on the state (2020, 0, 0) at reading 0 it produces
`timeToSetpoint = 46800` (13:00) where honoring the claim would produce
3600 (01:00). -/
theorem c1_setTime_am_bug :
    setTime 1 0 0 MornNight.AM 0 ⟨2020, 0, 0⟩ = set24HourTime 13 0 0 0 ⟨2020, 0, 0⟩ ∧
    (setTime 1 0 0 MornNight.AM 0 ⟨2020, 0, 0⟩).timeToSetpoint = 46800 ∧
    (set24HourTime 1 0 0 0 ⟨2020, 0, 0⟩).timeToSetpoint = 3600 ∧
    setTime 1 0 0 MornNight.AM 0 ⟨2020, 0, 0⟩ ≠ set24HourTime 1 0 0 0 ⟨2020, 0, 0⟩ := by
  refine ⟨by decide, by decide, by decide, by decide⟩

/-- Claim C2, behavior of the code at a failing input: on the state
(startYear 2023, timeToSetpoint 0, cpuTimeAtSetpoint 0), at elapsed
reading 31622400 the resolver yields 2024-01-02 00:00:00 (year 2024).
`set24HourTime(5, 0, 0)` executed at that reading never assigns
`startYear`, so the state keeps startYear 2023 and resolving at the same
reading afterwards yields year 2023, not the year 2024 of the instant at
the start of the call, contradicting the claim that the reference year is
updated to keep the resolved date. -/
theorem c2_set24HourTime_year_bug :
    (timeFor ⟨2023, 0, 0⟩ 31622400).year = 2024 ∧
    set24HourTime 5 0 0 31622400 ⟨2023, 0, 0⟩ = ⟨2023, 104400, 31622400⟩ ∧
    (timeFor (set24HourTime 5 0 0 31622400 ⟨2023, 0, 0⟩) 31622400).year = 2023 ∧
    (set24HourTime 5 0 0 31622400 ⟨2023, 0, 0⟩).startYear ≠
      (timeFor ⟨2023, 0, 0⟩ 31622400).year := by
  refine ⟨by decide, by decide, by decide, by decide⟩

/-- Claim C3, counterexample: the claim fails as stated on two concrete
inputs. First, on the state (2023, 5097600, 0) at reading 0 the resolver
yields 2023-03-01 (day-of-year 60, a non-leap year); 365 x 86400 seconds
later it yields 2024-02-29 - the year is incremented but month and day
are not preserved, because 2024 is a leap year and the leap-day
adjustment shifts the decomposition of day-of-year 60. Second, on the
state (2023, 0, 0) at reading 0 the resolver yields 2023-01-01 00:00:00;
365 x 86400 seconds later the residual equals exactly the year length,
the strict `>` in the rollover loop does not roll it over, and the
resolver yields day-of-year 366 of year 2023 with the sentinel
month = day = -1: the year is not even incremented. -/
theorem c3_counterexample :
    isLeapYear (timeFor ⟨2023, 5097600, 0⟩ 0).year = false ∧
    timeFor ⟨2023, 5097600, 0⟩ 0 = ⟨3, 1, 2023, 0, 0, 0, 60⟩ ∧
    timeFor ⟨2023, 5097600, 0⟩ (0 + 365 * 24 * 60 * 60) = ⟨2, 29, 2024, 0, 0, 0, 60⟩ ∧
    (timeFor ⟨2023, 5097600, 0⟩ (0 + 365 * 24 * 60 * 60)).month ≠
      (timeFor ⟨2023, 5097600, 0⟩ 0).month ∧
    isLeapYear (timeFor ⟨2023, 0, 0⟩ 0).year = false ∧
    timeFor ⟨2023, 0, 0⟩ 0 = ⟨1, 1, 2023, 0, 0, 0, 1⟩ ∧
    timeFor ⟨2023, 0, 0⟩ (0 + 365 * 24 * 60 * 60) = ⟨-1, -1, 2023, 0, 0, 0, 366⟩ ∧
    (timeFor ⟨2023, 0, 0⟩ (0 + 365 * 24 * 60 * 60)).year ≠
      (timeFor ⟨2023, 0, 0⟩ 0).year + 1 := by
  refine ⟨by decide, by decide, by decide, by decide, by decide, by decide, by decide, by decide⟩

/-- Claim C6: for the units Seconds, Minutes, Hours and Days, `advanceBy`
subtracts exactly amount x 1, amount x 60, amount x 3600 and
amount x 86400 from `cpuTimeAtSetpoint` respectively, leaves `startYear`
and `timeToSetpoint` unchanged, and performs no clamping of the result. -/
theorem c6_advanceBy_frame (st : ClockState) (amount : Int) :
    advanceBy amount TimeUnit.Seconds st =
      ⟨st.startYear, st.timeToSetpoint, st.cpuTimeAtSetpoint - amount * 1⟩ ∧
    advanceBy amount TimeUnit.Minutes st =
      ⟨st.startYear, st.timeToSetpoint, st.cpuTimeAtSetpoint - amount * 60⟩ ∧
    advanceBy amount TimeUnit.Hours st =
      ⟨st.startYear, st.timeToSetpoint, st.cpuTimeAtSetpoint - amount * 3600⟩ ∧
    advanceBy amount TimeUnit.Days st =
      ⟨st.startYear, st.timeToSetpoint, st.cpuTimeAtSetpoint - amount * 86400⟩ := by
  refine ⟨rfl, rfl, ?_, ?_⟩ <;> simp [advanceBy, TimeUnit.index]

/-- Claim C7, behavior of the code at a failing input: on the state
(startYear 2023, timeToSetpoint 31536000 = 365 x 86400,
cpuTimeAtSetpoint 0) - which satisfies the claim hypotheses
timeToSetpoint >= 0 and reading >= cpuTimeAtSetpoint - the resolver at
reading 0 leaves a residual of exactly one non-leap-year length (the
loop guard is strict `>`), computes day-of-year 366 in year 2023, and
the inverse lookup returns the sentinel month = day = -1, violating the
claimed ranges month 1..12 and day 1..31. -/
theorem c7_resolver_range_bug :
    (0 : Int) ≤ (⟨2023, 31536000, 0⟩ : ClockState).timeToSetpoint ∧
    (⟨2023, 31536000, 0⟩ : ClockState).cpuTimeAtSetpoint ≤ 0 ∧
    timeFor ⟨2023, 31536000, 0⟩ 0 = ⟨-1, -1, 2023, 0, 0, 0, 366⟩ := by
  refine ⟨by decide, by decide, by decide⟩

/-- Claim C9: the query operations `time`, `date`, `dateTime` and
`numericTime` return the clock state unchanged: none of them assigns any
of the three state variables. -/
theorem c9_queries_pure (st : ClockState) (cpuTime : Int) (tf : TimeFormat)
    (df : DateFormat) :
    (time tf cpuTime st).1 = st ∧ (date df cpuTime st).1 = st ∧
    (dateTime cpuTime st).1 = st ∧ (numericTime cpuTime st).1 = st := by
  refine ⟨?_, ?_, rfl, rfl⟩
  · cases tf <;> rfl
  · cases df <;> rfl

/-- Claim C10: `advanceBy(amount, Milliseconds)` is a no-op for every
amount (positive, zero or negative): the Milliseconds entry of the unit
table is 0, so the whole state is unchanged and every subsequent query
resolves the same instant. -/
theorem c10_milliseconds_noop (st : ClockState) (amount : Int) :
    advanceBy amount TimeUnit.Milliseconds st = st ∧
    ∀ cpuTime : Int,
      timeFor (advanceBy amount TimeUnit.Milliseconds st) cpuTime = timeFor st cpuTime := by
  have h : advanceBy amount TimeUnit.Milliseconds st = st := by
    unfold advanceBy
    simp [TimeUnit.index]
  exact ⟨h, fun cpuTime => by rw [h]⟩

/-- Claim C4: for every clock state and elapsed reading at which the
resolver returns the instant 2024-12-31 23:59:30 (day-of-year 366),
after `advanceBy(40, Seconds)` the resolver at the same reading returns
2025-01-01 00:00:10 (day-of-year 1): the 40-second offset crosses the
2024/2025 leap-year boundary correctly. -/
theorem c4_advanceBy_crosses_year (st : ClockState) (cpuTime : Int)
    (h : timeFor st cpuTime = ⟨12, 31, 2024, 23, 59, 30, 366⟩) :
    timeFor (advanceBy 40 TimeUnit.Seconds st) cpuTime = ⟨1, 1, 2025, 0, 0, 10, 1⟩ := by
  have hyear : (resolvedYS st cpuTime).1 = 2024 := congrArg DateTime.year h
  have hdoy : (resolvedYS st cpuTime).2.tdiv (24 * 60 * 60) + 1 = 366 :=
    congrArg DateTime.dayOfYear h
  have hhour : ((resolvedYS st cpuTime).2.tmod (24 * 60 * 60)).tdiv (60 * 60) = 23 :=
    congrArg DateTime.hour h
  have hminute : (((resolvedYS st cpuTime).2.tmod (24 * 60 * 60)).tmod (60 * 60)).tdiv 60 = 59 :=
    congrArg DateTime.minute h
  have hsecond : (((resolvedYS st cpuTime).2.tmod (24 * 60 * 60)).tmod (60 * 60)).tmod 60 = 30 :=
    congrArg DateTime.second h
  have hs0 : 0 ≤ (resolvedYS st cpuTime).2 := by
    rcases le_or_lt 0 (resolvedYS st cpuTime).2 with h0 | h0
    · exact h0
    · exfalso
      have h1 : 0 ≤ (-(resolvedYS st cpuTime).2).tdiv (24 * 60 * 60) :=
        Int.tdiv_nonneg (by omega) (by norm_num)
      have h2 : (-(-(resolvedYS st cpuTime).2)).tdiv (24 * 60 * 60) =
          -((-(resolvedYS st cpuTime).2).tdiv (24 * 60 * 60)) :=
        Int.neg_tdiv (-(resolvedYS st cpuTime).2) (24 * 60 * 60)
      rw [neg_neg] at h2
      rw [h2] at hdoy
      linarith
  have e2 : (resolvedYS st cpuTime).2.tmod (24 * 60 * 60) =
      (resolvedYS st cpuTime).2 % (24 * 60 * 60) := Int.tmod_eq_emod hs0 (by norm_num)
  have e1 : (resolvedYS st cpuTime).2.tdiv (24 * 60 * 60) =
      (resolvedYS st cpuTime).2 / (24 * 60 * 60) := Int.tdiv_eq_ediv hs0 (by norm_num)
  have hm0 : 0 ≤ (resolvedYS st cpuTime).2 % (24 * 60 * 60) :=
    Int.emod_nonneg _ (by norm_num)
  have e3 : ((resolvedYS st cpuTime).2 % (24 * 60 * 60)).tdiv (60 * 60) =
      ((resolvedYS st cpuTime).2 % (24 * 60 * 60)) / (60 * 60) :=
    Int.tdiv_eq_ediv hm0 (by norm_num)
  have e4 : ((resolvedYS st cpuTime).2 % (24 * 60 * 60)).tmod (60 * 60) =
      ((resolvedYS st cpuTime).2 % (24 * 60 * 60)) % (60 * 60) :=
    Int.tmod_eq_emod hm0 (by norm_num)
  have hm1 : 0 ≤ ((resolvedYS st cpuTime).2 % (24 * 60 * 60)) % (60 * 60) :=
    Int.emod_nonneg _ (by norm_num)
  have e5 : (((resolvedYS st cpuTime).2 % (24 * 60 * 60)) % (60 * 60)).tdiv 60 =
      (((resolvedYS st cpuTime).2 % (24 * 60 * 60)) % (60 * 60)) / 60 :=
    Int.tdiv_eq_ediv hm1 (by norm_num)
  have e6 : (((resolvedYS st cpuTime).2 % (24 * 60 * 60)) % (60 * 60)).tmod 60 =
      (((resolvedYS st cpuTime).2 % (24 * 60 * 60)) % (60 * 60)) % 60 :=
    Int.tmod_eq_emod hm1 (by norm_num)
  rw [e1] at hdoy
  rw [e2, e3] at hhour
  rw [e2, e4, e5] at hminute
  rw [e2, e4, e6] at hsecond
  norm_num at hdoy hhour hminute hsecond
  have hs2 : (resolvedYS st cpuTime).2 = 31622370 := by omega
  have hpair : rollOver st.startYear (st.timeToSetpoint + (cpuTime - st.cpuTimeAtSetpoint)) =
      ((2024 : Int), (31622370 : Int)) := Prod.ext hyear hs2
  have hshift := @rollOver_shift 40 _ _ _ _ (by norm_num) hpair
  have hadv : advanceBy 40 TimeUnit.Seconds st =
      ⟨st.startYear, st.timeToSetpoint, st.cpuTimeAtSetpoint - 40⟩ := by
    simp [advanceBy, TimeUnit.index]
  rw [timeFor_decompose, hadv]
  show decomposeInstant (rollOver st.startYear
    (st.timeToSetpoint + (cpuTime - (st.cpuTimeAtSetpoint - 40)))) = _
  rw [show st.timeToSetpoint + (cpuTime - (st.cpuTimeAtSetpoint - 40)) =
    st.timeToSetpoint + (cpuTime - st.cpuTimeAtSetpoint) + 40 from by ring]
  rw [hshift]
  decide

/-- Claim C4, witness: on the concrete state (2024, 31622370, 0) at
reading 0 the resolver returns 2024-12-31 23:59:30, and the theorem then
yields 2025-01-01 00:00:10 after advancing by 40 seconds. -/
theorem c4_advanceBy_crosses_year_witness :
    timeFor ⟨2024, 31622370, 0⟩ 0 = ⟨12, 31, 2024, 23, 59, 30, 366⟩ ∧
    timeFor (advanceBy 40 TimeUnit.Seconds ⟨2024, 31622370, 0⟩) 0 = ⟨1, 1, 2025, 0, 0, 10, 1⟩ :=
  ⟨by decide, c4_advanceBy_crosses_year ⟨2024, 31622370, 0⟩ 0 (by decide)⟩

/-- Claim C3 (amended): for every clock state and elapsed reading whose
resolved year is a non-leap year and whose resolved seconds-into-year
(the residual after the rollover loop) is strictly between 0 and
365 x 86400, and for which additionally either the resolved day-of-year
is below 60 or the following year is also non-leap, increasing the
reading by exactly 365 x 86400 seconds yields an instant with the same
month, day, hour, minute, second and day-of-year and the year
incremented by 1. (The original claim fails exactly at the excluded
boundaries: at a residual of 0 or 365 x 86400 the strict `>` of the
rollover loop misbehaves, and when the next year is leap the leap-day
adjustment moves the month/day of day-of-year 60 and beyond; see the
counterexample.) -/
theorem c3_year_advance_amended (st : ClockState) (cpuTime : Int)
    (hleap : isLeapYear (resolvedYS st cpuTime).1 = false)
    (hpos : 0 < (resolvedYS st cpuTime).2)
    (hlt : (resolvedYS st cpuTime).2 < 365 * 24 * 60 * 60)
    (hcompat : (resolvedYS st cpuTime).2.tdiv (24 * 60 * 60) + 1 < 60 ∨
      isLeapYear ((resolvedYS st cpuTime).1 + 1) = false) :
    timeFor st (cpuTime + 365 * 24 * 60 * 60) =
      ⟨(timeFor st cpuTime).month, (timeFor st cpuTime).day, (timeFor st cpuTime).year + 1,
        (timeFor st cpuTime).hour, (timeFor st cpuTime).minute, (timeFor st cpuTime).second,
        (timeFor st cpuTime).dayOfYear⟩ := by
  have hpair : rollOver st.startYear (st.timeToSetpoint + (cpuTime - st.cpuTimeAtSetpoint)) =
      ((resolvedYS st cpuTime).1, (resolvedYS st cpuTime).2) := rfl
  have hshift := @rollOver_shift (365 * 24 * 60 * 60) _ _ _ _ (by norm_num) hpair
  have hstep1 : rollOver ((resolvedYS st cpuTime).1)
      ((resolvedYS st cpuTime).2 + 365 * 24 * 60 * 60) =
      rollOver ((resolvedYS st cpuTime).1 + 1) ((resolvedYS st cpuTime).2) := by
    rw [rollOver_step, if_pos (show rollOverCond ((resolvedYS st cpuTime).1)
      ((resolvedYS st cpuTime).2 + 365 * 24 * 60 * 60) from Or.inl ⟨hleap, by omega⟩)]
    congr 1
    unfold nextRollSeconds
    rw [hleap]
    simp only [Bool.false_eq_true, if_false]
    ring
  have hstep2 : rollOver ((resolvedYS st cpuTime).1 + 1) ((resolvedYS st cpuTime).2) =
      ((resolvedYS st cpuTime).1 + 1, (resolvedYS st cpuTime).2) := by
    rw [rollOver_step, if_neg]
    intro hc
    rcases hc with ⟨_, hx⟩ | hx <;> omega
  have hres : resolvedYS st (cpuTime + 365 * 24 * 60 * 60) =
      ((resolvedYS st cpuTime).1 + 1, (resolvedYS st cpuTime).2) := by
    unfold resolvedYS
    rw [show st.timeToSetpoint + (cpuTime + 365 * 24 * 60 * 60 - st.cpuTimeAtSetpoint) =
      st.timeToSetpoint + (cpuTime - st.cpuTimeAtSetpoint) + 365 * 24 * 60 * 60 from by ring]
    rw [hshift, hstep1, hstep2]
    rfl
  have hMD : dayOfYearToMonthAndDay ((resolvedYS st cpuTime).2.tdiv (24 * 60 * 60) + 1)
      ((resolvedYS st cpuTime).1 + 1) =
      dayOfYearToMonthAndDay ((resolvedYS st cpuTime).2.tdiv (24 * 60 * 60) + 1)
      ((resolvedYS st cpuTime).1) := by
    rcases hcompat with hd | hl2
    · exact dayOfYearToMonthAndDay_small hd _ _
    · exact dayOfYearToMonthAndDay_congr _ (hl2.trans hleap.symm)
  rw [timeFor_decompose st (cpuTime + 365 * 24 * 60 * 60), hres, timeFor_decompose st cpuTime]
  show decomposeInstant ((resolvedYS st cpuTime).1 + 1, (resolvedYS st cpuTime).2) =
    ⟨(decomposeInstant ((resolvedYS st cpuTime).1, (resolvedYS st cpuTime).2)).month,
     (decomposeInstant ((resolvedYS st cpuTime).1, (resolvedYS st cpuTime).2)).day,
     (decomposeInstant ((resolvedYS st cpuTime).1, (resolvedYS st cpuTime).2)).year + 1,
     (decomposeInstant ((resolvedYS st cpuTime).1, (resolvedYS st cpuTime).2)).hour,
     (decomposeInstant ((resolvedYS st cpuTime).1, (resolvedYS st cpuTime).2)).minute,
     (decomposeInstant ((resolvedYS st cpuTime).1, (resolvedYS st cpuTime).2)).second,
     (decomposeInstant ((resolvedYS st cpuTime).1, (resolvedYS st cpuTime).2)).dayOfYear⟩
  unfold decomposeInstant
  dsimp only
  rw [hMD]

/-- Claim C3 (amended), witness: the concrete state (2023, 86400, 0) at
reading 0 resolves to 2023-01-02 00:00:00 and satisfies every
hypothesis; advancing the reading by 365 x 86400 seconds yields
2024-01-02 00:00:00. -/
theorem c3_year_advance_amended_witness :
    isLeapYear (resolvedYS ⟨2023, 86400, 0⟩ 0).1 = false ∧
    0 < (resolvedYS ⟨2023, 86400, 0⟩ 0).2 ∧
    (resolvedYS ⟨2023, 86400, 0⟩ 0).2 < 365 * 24 * 60 * 60 ∧
    (resolvedYS ⟨2023, 86400, 0⟩ 0).2.tdiv (24 * 60 * 60) + 1 < 60 ∧
    timeFor ⟨2023, 86400, 0⟩ (0 + 365 * 24 * 60 * 60) = ⟨1, 2, 2024, 0, 0, 0, 2⟩ :=
  ⟨by decide, by decide, by decide, by decide,
    (c3_year_advance_amended ⟨2023, 86400, 0⟩ 0 (by decide) (by decide) (by decide)
      (Or.inl (by decide))).trans (by decide)⟩

/-- Finite check behind claim C5, instantiated at the non-leap year 2023:
the calendar round trip holds for every valid month/day pair. -/
lemma roundtrip_fin_2023 : ∀ mn : Nat, mn < 12 → ∀ dn : Nat, dn < 31 →
    ((dn : Int) + 1 ≤ daysInMonth ((mn : Int) + 1) 2023) →
    ((dayOfYearToMonthAndDay (dateToDayOfYear ((mn : Int) + 1) ((dn : Int) + 1) 2023)
        2023).month = (mn : Int) + 1 ∧
      (dayOfYearToMonthAndDay (dateToDayOfYear ((mn : Int) + 1) ((dn : Int) + 1) 2023)
        2023).day = (dn : Int) + 1) := by
  decide

/-- Finite check behind claim C5, instantiated at the leap year 2024. -/
lemma roundtrip_fin_2024 : ∀ mn : Nat, mn < 12 → ∀ dn : Nat, dn < 31 →
    ((dn : Int) + 1 ≤ daysInMonth ((mn : Int) + 1) 2024) →
    ((dayOfYearToMonthAndDay (dateToDayOfYear ((mn : Int) + 1) ((dn : Int) + 1) 2024)
        2024).month = (mn : Int) + 1 ∧
      (dayOfYearToMonthAndDay (dateToDayOfYear ((mn : Int) + 1) ((dn : Int) + 1) 2024)
        2024).day = (dn : Int) + 1) := by
  decide

/-- Every month has at most 31 days (checked at one non-leap and one leap
year; the function depends on the year only through `isLeapYear`). -/
lemma daysInMonth_le_fin : ∀ mn : Nat, mn < 12 →
    daysInMonth ((mn : Int) + 1) 2023 ≤ 31 ∧ daysInMonth ((mn : Int) + 1) 2024 ≤ 31 := by
  decide

/-- Claim C5: for every valid date (m, d, y) with 1 <= m <= 12 and
1 <= d <= days-in-month(m, y), `dayOfYearToMonthAndDay` inverts
`dateToDayOfYear`; in particular `dateToDayOfYear(2,29,2024) = 60`,
`dayOfYearToMonthAndDay(60,2024) = (2,29)` and
`dayOfYearToMonthAndDay(61,2024) = (3,1)`. -/
theorem c5_roundtrip :
    (∀ m d y : Int, 1 ≤ m → m ≤ 12 → 1 ≤ d → d ≤ daysInMonth m y →
      (dayOfYearToMonthAndDay (dateToDayOfYear m d y) y).month = m ∧
      (dayOfYearToMonthAndDay (dateToDayOfYear m d y) y).day = d) ∧
    dateToDayOfYear 2 29 2024 = 60 ∧
    (dayOfYearToMonthAndDay 60 2024).month = 2 ∧
    (dayOfYearToMonthAndDay 60 2024).day = 29 ∧
    (dayOfYearToMonthAndDay 61 2024).month = 3 ∧
    (dayOfYearToMonthAndDay 61 2024).day = 1 := by
  refine ⟨?_, by decide, by decide, by decide, by decide, by decide⟩
  intro m d y h1 h2 h3 h4
  obtain ⟨mn, rfl⟩ : ∃ mn : Nat, m = (mn : Int) + 1 := ⟨(m - 1).toNat, by omega⟩
  obtain ⟨dn, rfl⟩ : ∃ dn : Nat, d = (dn : Int) + 1 := ⟨(d - 1).toNat, by omega⟩
  have hmn : mn < 12 := by omega
  rcases Bool.eq_false_or_eq_true (isLeapYear y) with hl | hl
  · have hcongr : isLeapYear y = isLeapYear 2024 := by rw [hl]; decide
    rw [dateToDayOfYear_congr _ _ hcongr, dayOfYearToMonthAndDay_congr _ hcongr]
    rw [daysInMonth_congr _ hcongr] at h4
    have hdn : dn < 31 := by
      have hb := (daysInMonth_le_fin mn hmn).2
      omega
    exact roundtrip_fin_2024 mn hmn dn hdn h4
  · have hcongr : isLeapYear y = isLeapYear 2023 := by rw [hl]; decide
    rw [dateToDayOfYear_congr _ _ hcongr, dayOfYearToMonthAndDay_congr _ hcongr]
    rw [daysInMonth_congr _ hcongr] at h4
    have hdn : dn < 31 := by
      have hb := (daysInMonth_le_fin mn hmn).1
      omega
    exact roundtrip_fin_2023 mn hmn dn hdn h4

/-- Claim C5, witness: the round trip instantiated at the leap day
February 29, 2024. -/
theorem c5_roundtrip_witness :
    (1 : Int) ≤ 2 ∧ (2 : Int) ≤ 12 ∧ (1 : Int) ≤ 29 ∧ (29 : Int) ≤ daysInMonth 2 2024 ∧
    ((dayOfYearToMonthAndDay (dateToDayOfYear 2 29 2024) 2024).month = 2 ∧
      (dayOfYearToMonthAndDay (dateToDayOfYear 2 29 2024) 2024).day = 29) :=
  ⟨by decide, by decide, by decide, by decide,
    c5_roundtrip.1 2 29 2024 (by decide) (by decide) (by decide) (by decide)⟩

/-- Every entry of the cumulative-days table (and the default 0 for an
out-of-range read) is at most 365. -/
lemma cdoyAt_le_365 : ∀ i : Nat, cdoyAt i ≤ 365 := by
  intro i
  unfold cdoyAt cdoy
  rcases i with _|_|_|_|_|_|_|_|_|_|_|_|_|_|i
  all_goals first
  | decide
  | (simp only [List.getD_cons_succ, List.getD_nil]; decide)

/-- First iteration of the scan loop, with the table values computed. -/
lemma mdScan_step13 (d : Int) :
    mdScanAux d 13 = if d ≤ 31 then ⟨1, d - 0, 0, 0, 0, 0, 0⟩ else mdScanAux d 12 := rfl

/-- When `d` exceeds every table entry, the scan falls through every
guard and returns the sentinel. -/
lemma mdScanAux_sentinel (d : Int) (hd : 365 < d) :
    ∀ k : Nat, mdScanAux d k = ⟨-1, -1, 0, 0, 0, 0, 0⟩ := by
  intro k
  induction k with
  | zero => rfl
  | succ j ih =>
    have hg : ¬ (d ≤ cdoyAt (14 - (j + 1) + 1)) := by
      have := cdoyAt_le_365 (14 - (j + 1) + 1)
      omega
    show (if d ≤ cdoyAt (14 - (j + 1) + 1) then _ else mdScanAux d j) = _
    rw [if_neg hg]
    exact ih

set_option maxRecDepth 4000 in
/-- Finite check: for day numbers 1..365 the raw scan returns a month
of at least 1 (in particular, never the sentinel). -/
lemma mdScan_fin : ∀ dn : Nat, dn < 365 → 1 ≤ (mdScanAux ((dn : Int) + 1) 13).month := by
  decide

/-- In a non-leap year the inverse lookup is the raw scan. -/
lemma dayOfYearToMonthAndDay_of_not_leap {y : Int} (hl : isLeapYear y = false) (d : Int) :
    dayOfYearToMonthAndDay d y = mdScanAux d 13 := by
  unfold dayOfYearToMonthAndDay
  rw [hl]
  simp

/-- In a leap year the inverse lookup special-cases day 60 and shifts
later days down by one before the scan. -/
lemma dayOfYearToMonthAndDay_of_leap {y : Int} (hl : isLeapYear y = true) (d : Int) :
    dayOfYearToMonthAndDay d y =
      if d = 60 then ⟨2, 29, 0, 0, 0, 0, 0⟩
      else mdScanAux (if 60 < d then d - 1 else d) 13 := by
  unfold dayOfYearToMonthAndDay
  rw [hl]
  simp

set_option maxRecDepth 4000 in
/-- Finite validity check behind claim C8 at the non-leap year 2023. -/
lemma c8_fin_2023 : ∀ dn : Nat, dn < 365 →
    1 ≤ (dayOfYearToMonthAndDay ((dn : Int) + 1) 2023).month ∧
    (dayOfYearToMonthAndDay ((dn : Int) + 1) 2023).month ≤ 12 ∧
    1 ≤ (dayOfYearToMonthAndDay ((dn : Int) + 1) 2023).day ∧
    (dayOfYearToMonthAndDay ((dn : Int) + 1) 2023).day ≤
      daysInMonth (dayOfYearToMonthAndDay ((dn : Int) + 1) 2023).month 2023 := by
  decide

set_option maxRecDepth 4000 in
/-- Finite validity check behind claim C8 at the leap year 2024. -/
lemma c8_fin_2024 : ∀ dn : Nat, dn < 366 →
    1 ≤ (dayOfYearToMonthAndDay ((dn : Int) + 1) 2024).month ∧
    (dayOfYearToMonthAndDay ((dn : Int) + 1) 2024).month ≤ 12 ∧
    1 ≤ (dayOfYearToMonthAndDay ((dn : Int) + 1) 2024).day ∧
    (dayOfYearToMonthAndDay ((dn : Int) + 1) 2024).day ≤
      daysInMonth (dayOfYearToMonthAndDay ((dn : Int) + 1) 2024).month 2024 := by
  decide

/-- Claim C8: `dayOfYearToMonthAndDay(d, y)` returns the sentinel
month = day = -1 exactly when `d` exceeds every cumulative-table entry
for year y (that is, 365 < d in a non-leap year, 366 < d in a leap
year); and for every in-range day-of-year 1 <= d <= 365 (366 in a leap
year) it returns a valid month 1..12 and a valid day of that month,
never the sentinel. -/
theorem c8_sentinel :
    (∀ d y : Int,
      ((dayOfYearToMonthAndDay d y).month = -1 ∧ (dayOfYearToMonthAndDay d y).day = -1) ↔
        (if isLeapYear y then 366 < d else 365 < d)) ∧
    (∀ d y : Int, 1 ≤ d → d ≤ (if isLeapYear y then 366 else 365) →
      1 ≤ (dayOfYearToMonthAndDay d y).month ∧ (dayOfYearToMonthAndDay d y).month ≤ 12 ∧
      1 ≤ (dayOfYearToMonthAndDay d y).day ∧
      (dayOfYearToMonthAndDay d y).day ≤
        daysInMonth (dayOfYearToMonthAndDay d y).month y) := by
  constructor
  · intro d y
    rcases Bool.eq_false_or_eq_true (isLeapYear y) with hl | hl
    · rw [dayOfYearToMonthAndDay_of_leap hl, hl, if_pos rfl]
      constructor
      · rintro ⟨hm, -⟩
        by_contra hgt
        push_neg at hgt
        by_cases h60 : d = 60
        · rw [if_pos h60] at hm
          exact absurd hm (by decide)
        · rw [if_neg h60] at hm
          by_cases h60b : 60 < d
          · rw [if_pos h60b] at hm
            obtain ⟨dn, hdn, hde⟩ : ∃ dn : Nat, dn < 365 ∧ d - 1 = (dn : Int) + 1 :=
              ⟨(d - 2).toNat, by omega, by omega⟩
            have := mdScan_fin dn hdn
            rw [← hde] at this
            omega
          · rw [if_neg h60b] at hm
            rcases le_or_lt d 0 with hd0 | hd0
            · rw [mdScan_step13, if_pos (by omega)] at hm
              exact absurd hm (by norm_num)
            · obtain ⟨dn, hdn, hde⟩ : ∃ dn : Nat, dn < 365 ∧ d = (dn : Int) + 1 :=
                ⟨(d - 1).toNat, by omega, by omega⟩
              have := mdScan_fin dn hdn
              rw [← hde] at this
              omega
      · intro hgt
        rw [if_neg (by omega : ¬ (d = 60)), if_pos (by omega : 60 < d),
          mdScanAux_sentinel (d - 1) (by omega) 13]
        exact ⟨rfl, rfl⟩
    · rw [dayOfYearToMonthAndDay_of_not_leap hl, hl, if_neg (by decide)]
      constructor
      · rintro ⟨hm, -⟩
        by_contra hgt
        push_neg at hgt
        rcases le_or_lt d 0 with hd0 | hd0
        · rw [mdScan_step13, if_pos (by omega)] at hm
          exact absurd hm (by norm_num)
        · obtain ⟨dn, hdn, hde⟩ : ∃ dn : Nat, dn < 365 ∧ d = (dn : Int) + 1 :=
            ⟨(d - 1).toNat, by omega, by omega⟩
          have := mdScan_fin dn hdn
          rw [← hde] at this
          omega
      · intro hgt
        rw [mdScanAux_sentinel d (by omega) 13]
        exact ⟨rfl, rfl⟩
  · intro d y h1 h2
    rcases Bool.eq_false_or_eq_true (isLeapYear y) with hl | hl
    · have hcongr : isLeapYear y = isLeapYear 2024 := by rw [hl]; decide
      rw [hl, if_pos rfl] at h2
      rw [dayOfYearToMonthAndDay_congr d hcongr, daysInMonth_congr _ hcongr]
      obtain ⟨dn, hdn, rfl⟩ : ∃ dn : Nat, dn < 366 ∧ d = (dn : Int) + 1 :=
        ⟨(d - 1).toNat, by omega, by omega⟩
      exact c8_fin_2024 dn hdn
    · have hcongr : isLeapYear y = isLeapYear 2023 := by rw [hl]; decide
      rw [hl, if_neg (by decide)] at h2
      rw [dayOfYearToMonthAndDay_congr d hcongr, daysInMonth_congr _ hcongr]
      obtain ⟨dn, hdn, rfl⟩ : ∃ dn : Nat, dn < 365 ∧ d = (dn : Int) + 1 :=
        ⟨(d - 1).toNat, by omega, by omega⟩
      exact c8_fin_2023 dn hdn

/-- Claim C8, witness: the validity part instantiated at day-of-year 366
of the leap year 2024, which is December 31. -/
theorem c8_sentinel_witness :
    (1 : Int) ≤ 366 ∧ (366 : Int) ≤ (if isLeapYear 2024 then 366 else 365) ∧
    (1 ≤ (dayOfYearToMonthAndDay 366 2024).month ∧
      (dayOfYearToMonthAndDay 366 2024).month ≤ 12 ∧
      1 ≤ (dayOfYearToMonthAndDay 366 2024).day ∧
      (dayOfYearToMonthAndDay 366 2024).day ≤
        daysInMonth (dayOfYearToMonthAndDay 366 2024).month 2024) :=
  ⟨by decide, by decide, c8_sentinel.2 366 2024 (by decide) (by decide)⟩

end timeAndDate
